import Mathlib

/-
Verification development for the boost task runner (boostbuild package).
The definitions below are a shallow embedding of the Python sources:
  - boostbuild/context.py   (Variable, Command, load_context, check_inner_variables)
  - boostbuild/validations.py (validation pipeline)
  - boostbuild/errors.py    (error message constants, build_error_hinting)
  - boostbuild/utils.py     (find_variables_in, get_boost_target, get_required_vars_dict)
Python strings are Lean Strings; Python dicts are insertion-ordered association
lists; parsed YAML documents are values of the Yaml inductive below; a raised
Python exception is modelled by an explicit error constructor carrying the
exception's name; possibly unbounded recursion is modelled with explicit fuel.
-/

namespace Boost

/-! ## Python string primitives -/

/-- Characters removed by Python's str.strip (whitespace per str.isspace,
ASCII part). -/
def pyIsSpace (c : Char) : Bool :=
  c = ' ' || c = '\t' || c = '\n' || c = '\r' || c = '\x0b' || c = '\x0c'

/-- Python str.strip(): drop leading and trailing whitespace. -/
def pyStrip (s : String) : String :=
  String.mk (((s.toList.dropWhile pyIsSpace).reverse.dropWhile pyIsSpace).reverse)

/-- Helper for strContains: needle occurs as a contiguous run in the list. -/
def listContainsSub (needle : List Char) : List Char → Bool
  | [] => needle.isEmpty
  | l@(_ :: t) => needle.isPrefixOf l || listContainsSub needle t

/-- Python substring containment: the expression needle in hay for str
operands. -/
def strContains (hay needle : String) : Bool :=
  listContainsSub needle.toList hay.toList

/-- Python str.startswith. -/
def pyStartsWith (s pre : String) : Bool :=
  pre.toList.isPrefixOf s.toList

/-- Python str.endswith. -/
def pyEndsWith (s suf : String) : Bool :=
  suf.toList.isSuffixOf s.toList

/-- Python slicing s[1:-1]: drop the first and the last character. -/
def pySliceInner (s : String) : String :=
  String.mk ((s.toList.drop 1).dropLast)

/-- Helper for pyIndexOf: first index at which needle occurs. -/
def strFindIdx (needle : List Char) : List Char → Nat → Option Nat
  | l, i =>
    if needle.isPrefixOf l then some i
    else
      match l with
      | [] => none
      | _ :: t => strFindIdx needle t (i + 1)

/-- Python str.index(needle): index of the first occurrence, or a raised
ValueError when absent. -/
def pyIndexOf (hay needle : String) : Except String Nat :=
  match strFindIdx needle.toList hay.toList 0 with
  | some i => Except.ok i
  | none => Except.error "ValueError"

/-- Helper for pySplit: split a character list at every occurrence of the
separator character, never collapsing (Python str.split with an explicit
separator; all separators in this code base are single characters). -/
def pySplitChar (sep : Char) : List Char → List (List Char)
  | [] => [[]]
  | c :: rest =>
    if c = sep then [] :: pySplitChar sep rest
    else
      match pySplitChar sep rest with
      | [] => [[c]]
      | chunk :: chunks => (c :: chunk) :: chunks

/-- Python str.split(sep) for a one-character separator: the empty string
yields one empty chunk. -/
def pySplit (s : String) (sep : Char) : List String :=
  (pySplitChar sep s.toList).map String.mk

/-- Python sep.join(parts). -/
def pyJoin (sep : String) : List String → String
  | [] => ""
  | [x] => x
  | x :: y :: rest => x ++ sep ++ pyJoin sep (y :: rest)

/-- Core of pyFormat: replace each occurrence of a brace pair in the
template by the next positional argument. Too few arguments raise
IndexError (extra arguments are ignored, as in Python). -/
def pyFormatCore : List Char → List String → Except String (List Char)
  | [], _ => Except.ok []
  | '{' :: '}' :: rest, a :: as_ => (pyFormatCore rest as_).map (a.toList ++ ·)
  | '{' :: '}' :: _, [] => Except.error "IndexError"
  | c :: rest, as_ => (pyFormatCore rest as_).map (c :: ·)

/-- Python str.format with positional-only empty-brace placeholders, the only
form used by this code base. -/
def pyFormat (template : String) (args : List String) : Except String String :=
  (pyFormatCore template.toList args).map String.mk

/-! ## Lexical scanner: utils.find_variables_in

The Python implementation is re.findall applied with the pattern
lookbehind-open-brace, lazy dot-star, lookahead-close-brace. The scan below
reproduces the regex engine: a match may start at any position k whose
previous character is an opening brace; the match extends lazily to the
first closing brace at position j at or after k; scanning resumes at j for a
non-empty match; after an empty match the engine retries a non-empty match
at the same position (the post-3.7 re behavior) and otherwise advances by
one. The recursion is driven by a structural fuel argument so that the scan
computes by kernel reduction; every step advances the scan position k by at
least one, so a fuel of the string length plus one always suffices. -/

def fvScan (s : List Char) : Nat → Nat → List String
  | 0, _ => []
  | fuel + 1, k =>
    if k > s.length ∨ k = 0 then []
    else if s.get? (k - 1) = some '{' then
      match (s.drop k).findIdx? (· = '}') with
      | none => []
      | some i =>
        if i = 0 then
          "" :: (match (s.drop (k + 1)).findIdx? (· = '}') with
            | none => fvScan s fuel (k + 1)
            | some j =>
              String.mk ((s.drop k).take (j + 1)) :: fvScan s fuel (k + 1 + j))
        else
          String.mk ((s.drop k).take i) :: fvScan s fuel (k + i)
    else fvScan s fuel (k + 1)

/-- utils.find_variables_in: every regex match of content strictly between a
brace pair, left to right. -/
def find_variables_in (content : String) : List String :=
  fvScan content.toList (content.toList.length + 1) 1

/-! ## Parsed YAML values -/

/-- A value tree as produced by yaml.safe_load, restricted to the shapes a
boost file can contain: null, strings (all scalars are modelled as strings),
sequences and string-keyed mappings (insertion-ordered). -/
inductive Yaml where
  | nil : Yaml
  | str (s : String) : Yaml
  | seq (xs : List Yaml) : Yaml
  | map (kvs : List (String × Yaml)) : Yaml

/-- Python truthiness of a parsed YAML value. -/
def pyTruthy : Yaml → Bool
  | Yaml.nil => false
  | Yaml.str s => !(s = "")
  | Yaml.seq xs => !xs.isEmpty
  | Yaml.map kvs => !kvs.isEmpty

mutual
/-- Python equality on parsed YAML values (used by list membership tests):
lists compare elementwise in order, dicts compare as key-value sets
(insertion order is irrelevant to Python dict equality). -/
def yamlBEq : Yaml → Yaml → Bool
  | Yaml.nil, Yaml.nil => true
  | Yaml.str a, Yaml.str b => a == b
  | Yaml.seq as_, Yaml.seq bs => yamlListBEq as_ bs
  | Yaml.map as_, Yaml.map bs =>
    as_.length == bs.length && yamlKvsAll as_ bs
  | _, _ => false

def yamlListBEq : List Yaml → List Yaml → Bool
  | [], [] => true
  | a :: as_, b :: bs => yamlBEq a b && yamlListBEq as_ bs
  | _, _ => false

def yamlKvsAll : List (String × Yaml) → List (String × Yaml) → Bool
  | [], _ => true
  | (k, v) :: rest, bs =>
    (match bs.lookup k with
     | some v2 => yamlBEq v v2
     | none => false) && yamlKvsAll rest bs
end

/-- Python equality extended to the optional result of the generator search
(None equals only None). -/
def optYamlBEq : Option Yaml → Option Yaml → Bool
  | none, none => true
  | some a, some b => yamlBEq a b
  | _, _ => false

/-- Python membership needle in container for a parsed YAML container:
key lookup for dicts, element equality for lists, substring for strings,
a raised TypeError for None. -/
def pyIn (needle : String) : Yaml → Except String Bool
  | Yaml.nil => Except.error "TypeError"
  | Yaml.str s => Except.ok (strContains s needle)
  | Yaml.seq xs => Except.ok (xs.any fun y => match y with
      | Yaml.str s => s == needle
      | _ => false)
  | Yaml.map kvs => Except.ok (kvs.any fun kv => kv.1 == needle)

/-- Python subscript container[key] with a string key: dict lookup
(KeyError when absent); lists, strings and None raise TypeError. -/
def pySubscript (y : Yaml) (key : String) : Except String Yaml :=
  match y with
  | Yaml.map kvs =>
    match kvs.lookup key with
    | some v => Except.ok v
    | none => Except.error "KeyError"
  | _ => Except.error "TypeError"

/-- Python iteration over a parsed YAML container: dicts yield their keys,
strings yield their characters, lists yield their elements, None raises
TypeError. -/
def pyIterElems : Yaml → Except String (List Yaml)
  | Yaml.nil => Except.error "TypeError"
  | Yaml.str s => Except.ok (s.toList.map fun c => Yaml.str (String.mk [c]))
  | Yaml.seq xs => Except.ok xs
  | Yaml.map kvs => Except.ok (kvs.map fun kv => Yaml.str kv.1)

/-! ## Error constants: boostbuild/errors.py -/

def MISSING_BOOST_SECTION : String :=
  "the used boost.yaml file does not have a 'boost' section"

def EMPTY_BOOST_SECTION : String :=
  "the used boost.yaml file 'boost' section is empty"

def MISSING_TARGET : String :=
  "the used boost target '{}' is missing on the 'boost' section"

def MISSING_VARIABLE : String :=
  "the variable '{}' is missing on the 'vars' section and it was required by the '{}' '{}'"

def SELF_VAR_REQUEST : String :=
  "the variable '{}' is requesting itself, which is not allowed"

def BAD_FORMAT_BOOST_SECTION : String :=
  "the 'boost' section is bad formatted. It should contain key-value pairs where each key is a boost target and each value is a \\n separated list of commands for that specific boost target"

def BAD_FORMAT_VARS_SECTION : String :=
  "the 'vars' section is bad formatted. It should contain a list of objects with at least one key-value pair where the key will be used as the variable name and the value will will be used as the variabel value"

def UNKOWN_KEY : String := "Unkown key '{}'"

def UNSUPPORTED_VAR_ATTRIBUTE : String :=
  "the attribute '{}' on the var '{}' is not supported"

def BAD_FORMAT_ATTRIBUTES : String :=
  "the attributes '{}' on the variable '{}' are bad formatted, they should be a comma-separated list of variable attributes"

def NOT_ALLOWED_CHARACTERS : String :=
  "the '{}' '{}' has not-allowed caharacters, allowed characters: '{}'"

/-- boostbuild/context.py imports this name from boostbuild.errors, but
errors.py does not define it (importing the module raises ImportError in the
source snapshot). Its text is therefore unspecified; it is modelled as an
arbitrary fixed message, and no theorem depends on its contents. -/
def MISSING_VARS_SECTION : String :=
  "MISSING_VARS_SECTION"

/-- Same situation as MISSING_VARS_SECTION: imported by context.py yet absent
from errors.py; modelled as an arbitrary fixed message. -/
def EMPTY_VARS_SECTION : String :=
  "EMPTY_VARS_SECTION"

/-- errors.build_error_hinting: the offending string, a dash line with a caret
under the given position, then the message. -/
def build_error_hinting (error : String) (position : Nat) (message : String) : String :=
  let e := error ++ "\n"
  e ++ String.mk ((List.range (pyStrip e).length).map fun i =>
    if i = position then '^' else '-') ++ "\n" ++ message

/-! ## Runtime entities: context.py Variable and Command -/

/-- context.py class Variable. innerVariables mirrors the inner_variables
list handed to the constructor. -/
inductive Variable where
  | mk (name : String) (value : String) (attributes : String)
       (innerVariables : List Variable)

def Variable.name : Variable → String
  | Variable.mk n _ _ _ => n

def Variable.value : Variable → String
  | Variable.mk _ v _ _ => v

def Variable.attributes : Variable → String
  | Variable.mk _ _ a _ => a

def Variable.innerVariables : Variable → List Variable
  | Variable.mk _ _ _ i => i

/-- Variable.get_value: return the fixed mask when secret is requested and
the attributes string contains the substring secret; otherwise return the
stored value verbatim. -/
def Variable.get_value (v : Variable) (secret : Bool := false) : String :=
  if secret && strContains v.attributes "secret" then "*****"
  else v.value

/-- context.py class Command (runtime view). The vars field models the
Python attribute named variables, a dict from a name to the resolved
Variable entity (the word variables itself is reserved in Lean). -/
structure Command where
  command : String
  vars : List (String × Variable)
  args : List String

/-- One argument of Command.get_arguments: a whole-token brace reference is
replaced by the variable's value; a failed dict lookup is a raised KeyError,
modelled as none. -/
def expandArg (table : List (String × Variable)) (secret : Bool)
    (arg : String) : Option String :=
  if pyStartsWith arg "\x7b" && pyEndsWith arg "\x7d" then
    (table.lookup (pySliceInner arg)).map fun v => v.get_value secret
  else some arg

/-- Loop of Command.get_arguments over the argument list. -/
def expandArgs (table : List (String × Variable)) (secret : Bool) :
    List String → Option (List String)
  | [] => some []
  | a :: rest =>
    match expandArg table secret a with
    | none => none
    | some v => (expandArgs table secret rest).map (v :: ·)

/-- Command.get_arguments: replace every whole-token brace reference among
the arguments by the referenced variable's value. -/
def Command.get_arguments (c : Command) (secret : Bool := false) :
    Option (List String) :=
  expandArgs c.vars secret c.args

/-- Command.__str__: the command name and the space-joined arguments expanded
with secret set to true. -/
def Command.toStr (c : Command) : Option String :=
  (c.get_arguments true).map fun args =>
    c.command ++ " " ++ pyJoin " " args

/-! ## Heap model for context construction

load_context and check_inner_variables share Variable objects by reference
and mutate them after construction (check_inner_variables appends the value
it builds to the very list it passed as that value's inner_variables). The
object graph is therefore modelled with an explicit store: a Variable object
is a store index (its identity), and the two tables general_variables and
command_variables map names to store indices. -/

/-- The data held by one Variable object created during resolution. The
attributes field keeps the raw parsed YAML value found under the attributes
key (the Python code stores it unconverted). -/
structure VariableData where
  name : String
  value : String
  attributes : Yaml
  innerVariables : List Nat

/-- Mutable state threaded through check_inner_variables: the object store
plus the two dictionaries general_variables and command_variables (names to
store indices, insertion-ordered). -/
structure RState where
  store : List VariableData
  general : List (String × Nat)
  command : List (String × Nat)

/-- Python dict assignment d[k] = v: replace the binding in place when the
key is present (keys are unique in every table the model builds), append it
otherwise. -/
def dictSet (d : List (String × Nat)) (k : String) (v : Nat) :
    List (String × Nat) :=
  match d with
  | [] => [(k, v)]
  | (k1, v1) :: rest =>
    if k1 == k then (k, v) :: rest else (k1, v1) :: dictSet rest k v

/-- Result of one check_inner_variables call: a normal return carrying the
updated state and the outputs list (error strings or Variable store
indices), a raised exception, or exhausted recursion fuel (the Python code
has no depth guard, so unbounded recursion is possible). -/
inductive RRes where
  | ok (st : RState) (outputs : List (Sum String Nat))
  | raised (e : String)
  | fuelOut

/-- Error-backtrace append loop of check_inner_variables: copy inner
outputs; on the first error string, append it extended with the requesting
variable's name and stop. -/
def civ_append (variable_key : String) :
    List (Sum String Nat) → List (Sum String Nat) →
    List (Sum String Nat) × Bool
  | acc, [] => (acc, false)
  | acc, Sum.inl e :: _ =>
    (acc ++ [Sum.inl (e ++ " from " ++ variable_key)], true)
  | acc, Sum.inr v :: rest => civ_append variable_key (acc ++ [Sum.inr v]) rest

/-- The generator expression in check_inner_variables: the first element of
the vars section that contains variable_key, scanning in order (a membership
test that raises aborts the scan). -/
def find_first_containing (key : String) :
    List Yaml → Except String (Option Yaml)
  | [] => Except.ok none
  | e :: rest =>
    match pyIn key e with
    | Except.error err => Except.error err
    | Except.ok true => Except.ok (some e)
    | Except.ok false => find_first_containing key rest

/-- Loop body plus construction tail of check_inner_variables, processing
the references found inside the declared value. The recurse argument is the
recursive call at one less fuel. Parameters: fv is the matched vars entry,
value its declared value for variable_key. -/
def civ_loop (variable_key : String) (value : String) (fv : Yaml)
    (recurse : RState → String → RRes) :
    RState → List String → List (Sum String Nat) → RRes
  | st, [], outputs =>
    match pyIn "attributes" fv with
    | Except.error e => RRes.raised e
    | Except.ok hasAttrs =>
      match (if hasAttrs then pySubscript fv "attributes"
             else Except.ok (Yaml.str "")) with
      | Except.error e => RRes.raised e
      | Except.ok attributes =>
        let vid := st.store.length
        let data : VariableData :=
          { name := variable_key, value := value, attributes := attributes,
            innerVariables := (outputs.filterMap fun o => o.getRight?) ++ [vid] }
        RRes.ok
          { store := st.store ++ [data],
            general := dictSet st.general variable_key vid,
            command := dictSet st.command variable_key vid }
          (outputs ++ [Sum.inr vid])
  | st, str_variable :: rest, outputs =>
    if str_variable == variable_key then
      match pyFormat SELF_VAR_REQUEST [variable_key] with
      | Except.error e => RRes.raised e
      | Except.ok msg => RRes.ok st (outputs ++ [Sum.inl msg])
    else
      match recurse st str_variable with
      | RRes.fuelOut => RRes.fuelOut
      | RRes.raised e => RRes.raised e
      | RRes.ok st2 inner =>
        match civ_append variable_key outputs inner with
        | (outs2, true) => RRes.ok st2 outs2
        | (outs2, false) => civ_loop variable_key value fv recurse st2 rest outs2

/-- The missing-variable exit of check_inner_variables: the source formats
MISSING_VARIABLE with a single argument although the template has three
placeholders, so this branch actually raises IndexError before the error
string can be appended to the outputs. -/
def civ_missing (st : RState) (variable_key : String) : RRes :=
  match pyFormat MISSING_VARIABLE [variable_key] with
  | Except.error e => RRes.raised e
  | Except.ok msg => RRes.ok st [Sum.inl msg]

/-- context.check_inner_variables: resolve variable_key against the vars
section, reusing an entry of general_variables when present, recursively
resolving the references inside the declared value, then allocating the new
Variable and registering it in both tables. The fuel argument bounds the
modelled recursion depth (each nested Python call consumes one unit). -/
def check_inner_variables (cfg : List (String × Yaml)) :
    Nat → RState → String → RRes
  | 0, _, _ => RRes.fuelOut
  | fuel + 1, st, variable_key =>
    match st.general.lookup variable_key with
    | some vid =>
      RRes.ok { st with command := dictSet st.command variable_key vid }
        [Sum.inr vid]
    | none =>
      match cfg.lookup "vars" with
      | none => RRes.raised "KeyError"
      | some vars_section =>
        match pyIterElems vars_section with
        | Except.error e => RRes.raised e
        | Except.ok elems =>
          match find_first_containing variable_key elems with
          | Except.error e => RRes.raised e
          | Except.ok found =>
            match found with
            | none => civ_missing st variable_key
            | some fv =>
              if !pyTruthy fv then civ_missing st variable_key
              else
                match pySubscript fv variable_key with
                | Except.error e => RRes.raised e
                | Except.ok (Yaml.str value) =>
                  civ_loop variable_key value fv
                    (fun st' k => check_inner_variables cfg fuel st' k)
                    st (find_variables_in value) []
                | Except.ok _ => RRes.raised "TypeError"

/-! ## Context builder: context.load_context -/

/-- The Command object as constructed by load_context (variables holds store
indices in the heap model). -/
structure CommandData where
  command : String
  vars : List (String × Nat)
  args : List String
deriving DecidableEq

/-- The context dictionary built by load_context: each field is present
(some) exactly when the corresponding key was assigned. -/
structure Context where
  error : Option String := none
  target : Option String := none
  vars : Option (List (String × Nat)) := none
  commands : Option (List CommandData) := none
deriving DecidableEq

/-- Result of load_context: a returned context, a raised exception, or
exhausted resolver fuel. -/
inductive LRes where
  | ok (ctx : Context)
  | raised (e : String)
  | fuelOut
deriving DecidableEq

/-- First error string in a check_inner_variables outputs list (the error
scan load_context performs over the returned variables). -/
def first_error (outs : List (Sum String Nat)) : Option String :=
  outs.findSome? fun o => match o with
    | Sum.inl e => some e
    | Sum.inr _ => none

/-- Result of the per-command reference loop of load_context. -/
inductive VLRes where
  | done (st : RState)
  | err (e : String)
  | raised (e : String)
  | fuelOut

/-- Per-command loop of load_context over the references found in one
command line: each reference goes through check_inner_variables, and the
first error string among the outputs aborts the build. -/
def lc_vars_loop (cfg : List (String × Yaml)) (fuel : Nat) :
    RState → List String → VLRes
  | st, [] => VLRes.done st
  | st, str_var :: rest =>
    match check_inner_variables cfg fuel st str_var with
    | RRes.fuelOut => VLRes.fuelOut
    | RRes.raised e => VLRes.raised e
    | RRes.ok st2 outs =>
      match first_error outs with
      | some e => VLRes.err e
      | none => lc_vars_loop cfg fuel st2 rest

/-- Command loop of load_context: for each command line, require a vars
section, resolve the referenced variables into a fresh command_variables
table, then construct the Command from the space-split line. -/
def lc_commands_loop (cfg : List (String × Yaml)) (fuel : Nat) (tgt : String) :
    List String → RState → List CommandData → LRes
  | [], st, acc =>
    LRes.ok { target := some tgt, vars := some st.general,
              commands := some acc }
  | str_cmd :: rest, st, acc =>
    match cfg.lookup "vars" with
    | none =>
      LRes.ok { target := some tgt, error := some MISSING_VARS_SECTION }
    | some vars_section =>
        if !pyTruthy vars_section then
          LRes.ok { target := some tgt, error := some EMPTY_VARS_SECTION }
        else
          match lc_vars_loop cfg fuel { st with command := [] }
              (find_variables_in str_cmd) with
          | VLRes.fuelOut => LRes.fuelOut
          | VLRes.raised e => LRes.raised e
          | VLRes.err e => LRes.ok { target := some tgt, error := some e }
          | VLRes.done st2 =>
            let parts := pySplit str_cmd ' '
            let cmd : CommandData :=
              { command := parts.headD "", vars := st2.command,
                args := parts.tail }
            lc_commands_loop cfg fuel tgt rest st2 (acc ++ [cmd])

/-- Target selection of load_context: an empty selector takes the first
key of the boost mapping (keys() on a non-mapping raises AttributeError); a
non-empty selector must be a member of the boost section, and none records
the missing-target case. -/
def lc_target_sel (b : Yaml) (boost_target : String) :
    Except String (Option String) :=
  if boost_target = "" then
    match b with
    | Yaml.map kvs =>
      match kvs.head? with
      | some kv => Except.ok (some kv.1)
      | none => Except.error "IndexError"
    | _ => Except.error "AttributeError"
  else
    match pyIn boost_target b with
    | Except.error e => Except.error e
    | Except.ok true => Except.ok (some boost_target)
    | Except.ok false => Except.ok none

/-- context.load_context, modelled from the parsed top-level mapping of the
boost file onward (file existence and YAML parsing are outside the model;
the claims quantify over parsed configurations). The fuel argument is
forwarded to the variable resolver. -/
def load_context (fuel : Nat) (cfg : List (String × Yaml))
    (boost_target : String) : LRes :=
  match cfg.lookup "boost" with
  | none => LRes.ok { error := some MISSING_BOOST_SECTION }
  | some b =>
    if !pyTruthy b then LRes.ok { error := some EMPTY_BOOST_SECTION }
    else
      match lc_target_sel b boost_target with
      | Except.error e => LRes.raised e
      | Except.ok none =>
        match pyFormat MISSING_TARGET [boost_target] with
        | Except.error e => LRes.raised e
        | Except.ok msg => LRes.ok { error := some msg }
      | Except.ok (some tgt) =>
        match pySubscript b tgt with
        | Except.error e => LRes.raised e
        | Except.ok (Yaml.str cmdText) =>
          lc_commands_loop cfg fuel tgt (pySplit (pyStrip cmdText) '\n')
            { store := [], general := [], command := [] } []
        | Except.ok _ => LRes.raised "AttributeError"

/-! ## Validation pipeline: boostbuild/validations.py -/

/-- validations.SUPPORTTED_ATTRIBUTES (name spelled as in the source). -/
def SUPPORTTED_ATTRIBUTES : List String := ["secret", "exec"]

/-- The joined attributes whitelist string.ascii_letters plus the comma. -/
def ATTRIBUTES_WHITELIST_STR : String :=
  "abcdefghijklmnopqrstuvwxyzABCDEFGHIJKLMNOPQRSTUVWXYZ,"

/-- The joined variables and targets whitelist: string.ascii_letters plus
underscore and dash. -/
def VARIABLES_TARGETS_WHITELIST_STR : String :=
  "abcdefghijklmnopqrstuvwxyzABCDEFGHIJKLMNOPQRSTUVWXYZ_-"

mutual
/-- Python str() rendering of a parsed YAML value, used when a non-string
value is interpolated into an error message. Approximate for containers (no
theorem depends on these renderings). -/
def yamlToPyStr : Yaml → String
  | Yaml.nil => "None"
  | Yaml.str s => s
  | Yaml.seq xs => "[" ++ yamlListRepr xs ++ "]"
  | Yaml.map kvs => "\x7b" ++ yamlKvsRepr kvs ++ "\x7d"

/-- Python repr() rendering of a parsed YAML value (strings get quotes). -/
def yamlRepr : Yaml → String
  | Yaml.nil => "None"
  | Yaml.str s => "'" ++ s ++ "'"
  | Yaml.seq xs => "[" ++ yamlListRepr xs ++ "]"
  | Yaml.map kvs => "\x7b" ++ yamlKvsRepr kvs ++ "\x7d"

def yamlListRepr : List Yaml → String
  | [] => ""
  | [x] => yamlRepr x
  | x :: y :: rest => yamlRepr x ++ ", " ++ yamlListRepr (y :: rest)

def yamlKvsRepr : List (String × Yaml) → String
  | [] => ""
  | [(k, v)] => "'" ++ k ++ "': " ++ yamlRepr v
  | (k, v) :: kv :: rest =>
    "'" ++ k ++ "': " ++ yamlRepr v ++ ", " ++ yamlKvsRepr (kv :: rest)
end

/-- validations.validate_missing_boost_section. -/
def validate_missing_boost_section (cfg : List (String × Yaml)) :
    Except String String :=
  Except.ok (if (cfg.lookup "boost").isNone then MISSING_BOOST_SECTION else "")

/-- validations.validate_empty_boost_section (subscripting a missing boost
key raises KeyError when called out of pipeline order). -/
def validate_empty_boost_section (cfg : List (String × Yaml)) :
    Except String String :=
  match cfg.lookup "boost" with
  | none => Except.error "KeyError"
  | some b => Except.ok (if !pyTruthy b then EMPTY_BOOST_SECTION else "")

/-- Scan of validate_boost_targets_chars over the target names in order. -/
def vbc_scan : List (String × Yaml) → Except String String
  | [] => Except.ok ""
  | (target, _) :: rest =>
    if target.toList.any
        (fun c => !(VARIABLES_TARGETS_WHITELIST_STR.toList.contains c)) then
      pyFormat NOT_ALLOWED_CHARACTERS
        ["target", target, VARIABLES_TARGETS_WHITELIST_STR]
    else vbc_scan rest

/-- validations.validate_boost_targets_chars. Calling items() on a
non-mapping boost section raises AttributeError. -/
def validate_boost_targets_chars (cfg : List (String × Yaml)) :
    Except String String :=
  match cfg.lookup "boost" with
  | none => Except.error "KeyError"
  | some (Yaml.map kvs) => vbc_scan kvs
  | some _ => Except.error "AttributeError"

/-- validations.validate_boost_section_format. -/
def validate_boost_section_format (cfg : List (String × Yaml)) :
    Except String String :=
  match cfg.lookup "boost" with
  | none => Except.error "KeyError"
  | some (Yaml.map _) => Except.ok ""
  | some _ => Except.ok BAD_FORMAT_BOOST_SECTION

/-- validations.validate_attributes_format: a non-string attributes value is
a format error (its Python str() rendering is interpolated). -/
def validate_attributes_format (attributes : Yaml) : Except String String :=
  match attributes with
  | Yaml.str _ => Except.ok ""
  | _ => pyFormat BAD_FORMAT_ATTRIBUTES [yamlToPyStr attributes, "attributes"]

/-- validations.validate_attributes_chars. Non-string input is modelled as a
raise; inside the attribute pipeline the format check has already ruled that
case out. -/
def validate_attributes_chars (attributes : Yaml) : Except String String :=
  match attributes with
  | Yaml.str s =>
    if s.toList.any
        (fun c => !(ATTRIBUTES_WHITELIST_STR.toList.contains c)) then
      pyFormat NOT_ALLOWED_CHARACTERS ["attributes", s, ATTRIBUTES_WHITELIST_STR]
    else Except.ok ""
  | _ => Except.error "TypeError"

/-- validations.validate_supported_attributes: split the attributes string
on commas and reject the first chunk outside the supported list. Splitting
the empty string yields one empty chunk. -/
def validate_supported_attributes (attributes : Yaml) : Except String String :=
  match attributes with
  | Yaml.str s =>
    match (pySplit s ',').find? (fun a => !(SUPPORTTED_ATTRIBUTES.contains a)) with
    | some attr => pyFormat UNSUPPORTED_VAR_ATTRIBUTE [attr, "attributes"]
    | none => Except.ok ""
  | _ => Except.error "AttributeError"

/-- The ordered attribute validation pipeline run by validate_variables for
each attributes key: format, character set, supported names; the first
non-empty error string wins. -/
def run_attribute_validations (value : Yaml) : Except String String :=
  match validate_attributes_format value with
  | Except.error e => Except.error e
  | Except.ok e1 =>
    if e1 ≠ "" then Except.ok e1
    else
      match validate_attributes_chars value with
      | Except.error e => Except.error e
      | Except.ok e2 =>
        if e2 ≠ "" then Except.ok e2
        else
          match validate_supported_attributes value with
          | Except.error e => Except.error e
          | Except.ok e3 => Except.ok e3

/-- utils.get_boost_target: the given target when non-empty, otherwise the
first element of iterating the boost section. -/
def get_boost_target (cfg : List (String × Yaml)) (boost_target : String) :
    Except String String :=
  if boost_target ≠ "" then Except.ok boost_target
  else
    match cfg.lookup "boost" with
    | none => Except.error "KeyError"
    | some (Yaml.map kvs) =>
      match kvs.head? with
      | some kv => Except.ok kv.1
      | none => Except.error "IndexError"
    | some (Yaml.str s) =>
      match s.toList.head? with
      | some c => Except.ok (String.mk [c])
      | none => Except.error "IndexError"
    | some (Yaml.seq xs) =>
      match xs.head? with
      | some (Yaml.str s) => Except.ok s
      | some _ => Except.error "TypeError"
      | none => Except.error "IndexError"
    | some Yaml.nil => Except.error "TypeError"

/-- A required-variables table entry: variable name, requesting target and
the command line where it first occurs. -/
abbrev ReqVars := List (String × String × String)

/-- Inner loop of utils.get_required_vars_dict over the references of one
command line, keeping the first occurrence of each variable. -/
def grvd_vars (target command : String) : List String → ReqVars → ReqVars
  | [], acc => acc
  | v :: rest, acc =>
    grvd_vars target command rest
      (if acc.any (fun r => r.1 == v) then acc
       else acc ++ [(v, target, command)])

/-- Loop of utils.get_required_vars_dict over one target's command lines. -/
def grvd_commands (target : String) : List String → ReqVars → ReqVars
  | [], acc => acc
  | command :: rest, acc =>
    grvd_commands target rest
      (grvd_vars target command (find_variables_in command) acc)

/-- Loop of utils.get_required_vars_dict over the targets. -/
def grvd_targets : List (String × Yaml) → ReqVars → Except String ReqVars
  | [], acc => Except.ok acc
  | (target, commands) :: rest, acc =>
    match commands with
    | Yaml.str ctext =>
      grvd_targets rest
        (grvd_commands target (pySplit (pyStrip ctext) '\n') acc)
    | _ => Except.error "AttributeError"

/-- utils.get_required_vars_dict: every variable referenced by any target's
commands, mapped to the target and command of its first occurrence. -/
def get_required_vars_dict (targets : Yaml) : Except String ReqVars :=
  match targets with
  | Yaml.map kvs => grvd_targets kvs []
  | _ => Except.error "AttributeError"

/-- The generator scan inside validate_variables: whether any element of the
vars section contains rvar, evaluating memberships in order (a raising
membership aborts). -/
def vv_scan_any (rvar : String) : List Yaml → Except String Bool
  | [] => Except.ok false
  | e :: rest =>
    match pyIn rvar e with
    | Except.error err => Except.error err
    | Except.ok true => Except.ok true
    | Except.ok false => vv_scan_any rvar rest

/-- Self-reference scan of validate_variables over the items of the found
declaration: a key equal to rvar is reported as SELF_VAR_REQUEST with
positional hinting on that key's value. -/
def vv_self_scan (rvar : String) : List (String × Yaml) → Except String (Option String)
  | [] => Except.ok none
  | (fk, fv) :: rest =>
    if fk == rvar then
      match fv with
      | Yaml.str fvs =>
        match pyIndexOf fvs ("\x7b" ++ rvar ++ "\x7d") with
        | Except.error e => Except.error e
        | Except.ok idx =>
          match pyFormat SELF_VAR_REQUEST [rvar] with
          | Except.error e => Except.error e
          | Except.ok msg => Except.ok (some (build_error_hinting fvs idx msg))
      | _ => Except.error "AttributeError"
    else vv_self_scan rvar rest

/-- Loop of validate_variables over the references inside one declared
value. The found declaration is the enclosing loop's current element var
whenever any element contains rvar: the source's generator expression
yields the outer loop variable, not the scanned element. Returns either a
validation error string (inl) or the updated checked list (inr). -/
def vv_rvar_loop (elems : List Yaml) (var : Yaml) (varName : String)
    (value : String) :
    List String → List (Option Yaml) → Except String (Sum String (List (Option Yaml)))
  | [], checked => Except.ok (Sum.inr checked)
  | rvar :: rest, checked =>
    match vv_scan_any rvar elems with
    | Except.error e => Except.error e
    | Except.ok any_found =>
      let found : Option Yaml := if any_found then some var else none
      if checked.any (fun c => optYamlBEq c found) then
        vv_rvar_loop elems var varName value rest checked
      else
        let checked2 := checked ++ [found]
        let isFalsy : Bool :=
          match found with
          | none => true
          | some fv => !pyTruthy fv
        if isFalsy then
          match pyIndexOf value ("\x7b" ++ rvar ++ "\x7d") with
          | Except.error e => Except.error e
          | Except.ok idx =>
            match pyFormat MISSING_VARIABLE [rvar, "variable", varName] with
            | Except.error e => Except.error e
            | Except.ok msg =>
              Except.ok (Sum.inl (build_error_hinting value idx msg))
        else
          match found with
          | some (Yaml.map fkvs) =>
            (match vv_self_scan rvar fkvs with
             | Except.error e => Except.error e
             | Except.ok (some msg) => Except.ok (Sum.inl msg)
             | Except.ok none =>
               vv_rvar_loop elems var varName value rest checked2)
          | some _ => Except.error "AttributeError"
          | none => Except.error "TypeError"

/-- Loop of validate_variables over the items of one vars declaration.
An attributes key runs the attribute pipeline; the first other key is the
data pair (charset check, required-table removal, reference checks); any
further key is UNKOWN_KEY. Returns a validation error string (inl) or the
updated required-variables table and checked list (inr). -/
def vv_items_loop (elems : List Yaml) (var : Yaml) :
    List (String × Yaml) → Bool → ReqVars → List (Option Yaml) →
    Except String (Sum String (ReqVars × List (Option Yaml)))
  | [], _, req, checked => Except.ok (Sum.inr (req, checked))
  | (varName, value) :: restItems, single_key_found, req, checked =>
    if varName == "attributes" then
      match run_attribute_validations value with
      | Except.error e => Except.error e
      | Except.ok err =>
        if err ≠ "" then Except.ok (Sum.inl err)
        else vv_items_loop elems var restItems single_key_found req checked
    else if !single_key_found then
      if varName.toList.any
          (fun c => !(VARIABLES_TARGETS_WHITELIST_STR.toList.contains c)) then
        match pyFormat NOT_ALLOWED_CHARACTERS
            ["variable", varName, VARIABLES_TARGETS_WHITELIST_STR] with
        | Except.error e => Except.error e
        | Except.ok msg => Except.ok (Sum.inl msg)
      else
        let req2 := req.filter fun r => !(r.1 == varName)
        match value with
        | Yaml.str vtext =>
          (match vv_rvar_loop elems var varName vtext
              (find_variables_in vtext) checked with
           | Except.error e => Except.error e
           | Except.ok (Sum.inl msg) => Except.ok (Sum.inl msg)
           | Except.ok (Sum.inr checked2) =>
             vv_items_loop elems var restItems true req2 checked2)
        | _ => Except.error "TypeError"
    else
      match pyFormat UNKOWN_KEY [varName] with
      | Except.error e => Except.error e
      | Except.ok msg => Except.ok (Sum.inl msg)

/-- Final loop of validate_variables: any entry left in the required
variables table is reported as missing, with positional hinting on the
command line that first required it. -/
def vv_final : ReqVars → Except String String
  | [] => Except.ok ""
  | (varName, target, command) :: _ =>
    match pyIndexOf command ("\x7b" ++ varName ++ "\x7d") with
    | Except.error e => Except.error e
    | Except.ok idx =>
      match pyFormat MISSING_VARIABLE [varName, "target", target] with
      | Except.error e => Except.error e
      | Except.ok msg => Except.ok (build_error_hinting command idx msg)

/-- Loop of validate_variables over the vars declarations. -/
def vv_vars_loop (elems : List Yaml) :
    List Yaml → ReqVars → List (Option Yaml) → Except String String
  | [], req, _ => vv_final req
  | var :: rest, req, checked =>
    match var with
    | Yaml.map kvs =>
      (match vv_items_loop elems var kvs false req checked with
       | Except.error e => Except.error e
       | Except.ok (Sum.inl msg) => Except.ok msg
       | Except.ok (Sum.inr (req2, checked2)) =>
         vv_vars_loop elems rest req2 checked2)
    | _ => Except.error "AttributeError"

/-- validations.validate_variables: resolve the effective target, collect
the references of its command text, and if any exist check the vars section
shape, attributes, duplicate keys, character sets, missing declarations and
direct self-references. -/
def validate_variables (cfg : List (String × Yaml)) (boost_target0 : String) :
    Except String String :=
  match get_boost_target cfg boost_target0 with
  | Except.error e => Except.error e
  | Except.ok boost_target =>
    match cfg.lookup "boost" with
    | none => Except.error "KeyError"
    | some boostY =>
      match pySubscript boostY boost_target with
      | Except.error e => Except.error e
      | Except.ok (Yaml.str ttext) =>
        if (find_variables_in ttext).isEmpty then Except.ok ""
        else
          (match cfg.lookup "vars" with
           | none => Except.error "KeyError"
           | some (Yaml.seq elems) =>
             (match get_required_vars_dict boostY with
              | Except.error e => Except.error e
              | Except.ok req => vv_vars_loop elems elems req [])
           | some _ => Except.ok BAD_FORMAT_VARS_SECTION)
      | Except.ok _ => Except.error "TypeError"

/-- Result of running the whole validate_boost_file pipeline: the parsed
configuration is accepted, a validation returned an error string, or a
validation raised an exception. -/
inductive ValRes where
  | passed
  | failed (e : String)
  | raised (e : String)
deriving DecidableEq

/-- One step of the ordered, short-circuiting pipeline. -/
def runVal (r : Except String String) (k : Unit → ValRes) : ValRes :=
  match r with
  | Except.error e => ValRes.raised e
  | Except.ok s => if s ≠ "" then ValRes.failed s else k ()

/-- validations.validate_boost_file: the ordered pipeline (missing boost
section, empty boost section, target charset, boost section shape, variable
checks), modelled from the parsed configuration onward. -/
def validate_boost_file (cfg : List (String × Yaml)) (boost_target : String) :
    ValRes :=
  runVal (validate_missing_boost_section cfg) fun _ =>
  runVal (validate_empty_boost_section cfg) fun _ =>
  runVal (validate_boost_targets_chars cfg) fun _ =>
  runVal (validate_boost_section_format cfg) fun _ =>
  runVal (validate_variables cfg boost_target) fun _ =>
  ValRes.passed

/-! ## Concrete configurations used by the claim theorems -/

/-- A Variable carrying the exec attribute, as the resolver would build for
the declaration now: echo hello with attributes exec. -/
def c1_exec_var : Variable := Variable.mk "now" "echo hello" "exec" []

/-- The inner variable b with plain value B. -/
def c1_inner_var : Variable := Variable.mk "b" "B" "" []

/-- A Variable whose value consists of a reference to b, with b resolved
into its inner variables. -/
def c1_ref_var : Variable := Variable.mk "a" "{b}" "" [c1_inner_var]

/-- A one-target configuration with no vars section whose single command
references no variables. -/
def c5_cfg : List (String × Yaml) :=
  [("boost", Yaml.map [("t", Yaml.str "echo hi")])]

/-- The context load_context returns for c5_cfg. -/
def c2_ctx : Context :=
  { error := some MISSING_VARS_SECTION, target := some "t" }

/-- A configuration whose vars section contains the indirect reference
cycle a to b to a. -/
def c3_cfg : List (String × Yaml) :=
  [("boost", Yaml.map [("t", Yaml.str "run \x7ba\x7d")]),
   ("vars", Yaml.seq [Yaml.map [("a", Yaml.str "{b}")],
                      Yaml.map [("b", Yaml.str "{a}")]])]

/-- The empty resolution state (fresh tables, empty store). -/
def emptyRState : RState := { store := [], general := [], command := [] }

/-- A configuration whose boost section is a non-empty sequence rather than
a mapping. -/
def c4_cfg_seq : List (String × Yaml) := [("boost", Yaml.seq [Yaml.str "build"])]

/-- A configuration whose boost section is a non-empty string. -/
def c4_cfg_str : List (String × Yaml) := [("boost", Yaml.str "build")]

/-- A configuration in which two commands of the same target reference the
same variable a. -/
def c6_cfg : List (String × Yaml) :=
  [("boost", Yaml.map [("t", Yaml.str "run \x7ba\x7d\nwalk \x7ba\x7d")]),
   ("vars", Yaml.seq [Yaml.map [("a", Yaml.str "v")]])]

/-- A resolution state in which a is already resolved to store index 0. -/
def c6_st : RState :=
  { store := [{ name := "a", value := "v", attributes := Yaml.str "",
                innerVariables := [0] }],
    general := [("a", 0)], command := [] }

/-! ## Claim theorems -/

/-- C1. The claim states a cascade for Variable.get_value: an exec variable
evaluates to the captured output of running its value, and a value holding a
reference evaluates to the referenced inner variable's value. The source's
get_value has neither branch: it returns the stored value verbatim (per the
secret mask), so the exec variable now yields its literal command line
"echo hello", and the reference variable a yields the literal string of a
brace pair around b instead of the inner value "B". -/
theorem c1_get_value_ignores_exec_and_references :
    c1_exec_var.get_value false = "echo hello" ∧
    c1_exec_var.get_value true = "echo hello" ∧
    c1_ref_var.get_value false = "\x7bb\x7d" ∧
    c1_inner_var.get_value false = "B" ∧
    c1_ref_var.get_value false ≠ c1_inner_var.get_value false := by
  refine ⟨rfl, rfl, rfl, rfl, ?_⟩
  decide

/-- C2 counterexample. The claim states a returned context never contains
both an error key and a target key. On a boost file with one target and no
vars section, load_context assigns the target key first and then returns
with the missing-vars error, so the returned context contains both. -/
theorem c2_error_and_target_coexist :
    load_context 1 c5_cfg "" = LRes.ok c2_ctx ∧
    c2_ctx.error.isSome = true ∧ c2_ctx.target.isSome = true := by
  exact ⟨rfl, rfl, rfl⟩

/-- C4. The claim states that a present, non-empty, non-mapping boost
section makes validate_boost_file return BAD_FORMAT_BOOST_SECTION. In the
source the charset check runs before the shape check and calls items() on
the boost section, so a non-mapping section raises AttributeError and the
shape check never runs; the shape check in isolation does produce
BAD_FORMAT_BOOST_SECTION for the same input, which the pipeline order makes
unreachable. -/
theorem c4_nonmapping_boost_raises_before_shape_check :
    validate_boost_file c4_cfg_seq "" = ValRes.raised "AttributeError" ∧
    validate_boost_file c4_cfg_str "" = ValRes.raised "AttributeError" ∧
    validate_boost_section_format c4_cfg_seq =
      Except.ok BAD_FORMAT_BOOST_SECTION ∧
    validate_boost_file c4_cfg_seq "" ≠ ValRes.failed BAD_FORMAT_BOOST_SECTION := by
  exact ⟨rfl, rfl, rfl, by decide⟩

/-- C5. The claim states that a configuration with no vars section and a
target whose commands reference no variables passes validation and loads a
context with no error. Validation indeed passes (the variable closure check
returns early when the target text has no references), but load_context
demands a vars section for every command line before looking for
references, so it returns the missing-vars error anyway. -/
theorem c5_missing_vars_error_without_references :
    find_variables_in "echo hi" = [] ∧
    validate_boost_file c5_cfg "t" = ValRes.passed ∧
    load_context 1 c5_cfg "t" = LRes.ok c2_ctx ∧
    c2_ctx.error = some MISSING_VARS_SECTION := by
  exact ⟨rfl, rfl, rfl, rfl⟩

/-- C10. An attributes key whose value is the empty string fails attribute
validation with UNSUPPORTED_VAR_ATTRIBUTE formatted for the empty attribute
name: splitting the empty string on a comma yields one empty chunk, which is
not among the supported attributes secret and exec. -/
theorem c10_empty_attributes_rejected :
    pySplit "" ',' = [""] ∧
    SUPPORTTED_ATTRIBUTES.contains "" = false ∧
    validate_supported_attributes (Yaml.str "") =
      Except.ok "the attribute '' on the var 'attributes' is not supported" ∧
    run_attribute_validations (Yaml.str "") =
      Except.ok "the attribute '' on the var 'attributes' is not supported" := by
  exact ⟨rfl, rfl, rfl, rfl⟩

/-- C8. Variable.get_value in secret mode masks exactly when the literal
text secret occurs as a contiguous substring of the attributes string; the
attributes string is not split on commas for this test, so the attribute
string secretive masks as well, while a string not containing the substring
(such as one with a comma inside the word) never masks. -/
theorem c8_mask_iff_secret_substring :
    (∀ v : Variable, strContains v.attributes "secret" = true →
      v.get_value true = "*****") ∧
    (∀ v : Variable, strContains v.attributes "secret" = false →
      v.get_value true = v.value) ∧
    strContains "secretive" "secret" = true ∧
    (Variable.mk "x" "val" "secretive" []).get_value true = "*****" ∧
    strContains "sec,ret" "secret" = false ∧
    (Variable.mk "x" "val" "sec,ret" []).get_value true = "val" := by
  refine ⟨?_, ?_, rfl, rfl, rfl, rfl⟩
  · intro v h
    simp [Variable.get_value, h]
  · intro v h
    simp [Variable.get_value, h]

/-- Witness for C8 at a concrete variable whose attributes list contains
secret as one comma-separated token. -/
theorem c8_mask_iff_secret_substring_witness :
    strContains (Variable.mk "y" "zzz" "a,secret" []).attributes "secret" = true ∧
    (Variable.mk "y" "zzz" "a,secret" []).get_value true = "*****" :=
  ⟨rfl, c8_mask_iff_secret_substring.1 (Variable.mk "y" "zzz" "a,secret" []) rfl⟩

/-- Setting a key makes lookup return the new value. -/
theorem dictSet_lookup_self (d : List (String × Nat)) (k : String) (v : Nat) :
    (dictSet d k v).lookup k = some v := by
  induction d with
  | nil => simp [dictSet, List.lookup]
  | cons p rest ih =>
    obtain ⟨k1, v1⟩ := p
    by_cases h : k1 = k
    · subst h
      simp [dictSet, List.lookup]
    · have hb : (k1 == k) = false := by simp [h]
      have hb2 : (k == k1) = false := by
        rw [beq_eq_false_iff_ne]
        exact fun hh => h hh.symm
      simp [dictSet, List.lookup, hb, hb2, ih]

/-- Setting a key leaves every other key's lookup unchanged. -/
theorem dictSet_lookup_other (d : List (String × Nat)) (k : String) (v : Nat)
    (name : String) (h : name ≠ k) :
    (dictSet d k v).lookup name = d.lookup name := by
  have hb0 : (name == k) = false := by
    rw [beq_eq_false_iff_ne]
    exact h
  induction d with
  | nil => simp [dictSet, List.lookup, hb0]
  | cons p rest ih =>
    obtain ⟨k1, v1⟩ := p
    by_cases h1 : k1 = k
    · subst h1
      have hb : (name == k1) = false := by simp [h]
      simp [dictSet, List.lookup, hb]
    · have hb : (k1 == k) = false := by simp [h1]
      by_cases h2 : name = k1
      · subst h2
        simp [dictSet, List.lookup, hb]
      · have hb2 : (name == k1) = false := by simp [h2]
        simp [dictSet, List.lookup, hb, hb2, ih]

/-- The tables of a resolution state agree when every binding of the
command table is also a binding of the general table. -/
def tablesAgree (st : RState) : Prop :=
  ∀ name vid, st.command.lookup name = some vid →
    st.general.lookup name = some vid

/-- The reference loop of check_inner_variables preserves every general
binding whose name differs from the variable under construction, provided
the recursive resolver preserves all general bindings. -/
theorem civ_loop_preserves_general (vk value : String) (fv : Yaml)
    (recurse : RState → String → RRes)
    (hrec : ∀ st k st' outs, recurse st k = RRes.ok st' outs →
      ∀ name vid, st.general.lookup name = some vid →
        st'.general.lookup name = some vid) :
    ∀ (lst : List String) (st : RState) (outs : List (Sum String Nat))
      (st' : RState) (outs' : List (Sum String Nat)),
      civ_loop vk value fv recurse st lst outs = RRes.ok st' outs' →
      ∀ name vid, name ≠ vk → st.general.lookup name = some vid →
        st'.general.lookup name = some vid := by
  intro lst
  induction lst with
  | nil =>
    intro st outs st' outs' h name vid hne hname
    simp only [civ_loop] at h
    split at h
    · exact absurd h (by simp)
    · split at h
      · exact absurd h (by simp)
      · simp only [RRes.ok.injEq] at h
        obtain ⟨h1, _⟩ := h
        subst h1
        simpa [dictSet_lookup_other _ _ _ _ hne] using hname
  | cons sv rest ih =>
    intro st outs st' outs' h name vid hne hname
    simp only [civ_loop] at h
    split at h
    · split at h
      · exact absurd h (by simp)
      · simp only [RRes.ok.injEq] at h
        obtain ⟨h1, _⟩ := h
        subst h1
        exact hname
    · split at h
      · exact absurd h (by simp)
      · exact absurd h (by simp)
      · rename_i st2 inner heq
        split at h
        · simp only [RRes.ok.injEq] at h
          obtain ⟨h1, _⟩ := h
          subst h1
          exact hrec _ _ _ _ heq name vid hname
        · exact ih _ _ _ _ h name vid hne
            (hrec _ _ _ _ heq name vid hname)

/-- check_inner_variables preserves every binding the general table holds
on entry (a binding is never remapped: the requested name is only
registered when it was absent, and nested registrations concern other
names or fresh ones). -/
theorem check_inner_variables_general_mono (cfg : List (String × Yaml)) :
    ∀ (fuel : Nat) (st : RState) (k : String) (st' : RState)
      (outs : List (Sum String Nat)),
      check_inner_variables cfg fuel st k = RRes.ok st' outs →
      ∀ name vid, st.general.lookup name = some vid →
        st'.general.lookup name = some vid := by
  intro fuel
  induction fuel with
  | zero =>
    intro st k st' outs h
    exact absurd h (by simp [check_inner_variables])
  | succ n ih =>
    intro st k st' outs h name vid hname
    simp only [check_inner_variables] at h
    split at h
    · simp only [RRes.ok.injEq] at h
      obtain ⟨h1, _⟩ := h
      subst h1
      exact hname
    · rename_i hmiss
      split at h
      · exact absurd h (by simp)
      · split at h
        · exact absurd h (by simp)
        · split at h
          · exact absurd h (by simp)
          · split at h
            · simp only [civ_missing] at h
              split at h
              · exact absurd h (by simp)
              · simp only [RRes.ok.injEq] at h
                obtain ⟨h1, _⟩ := h
                subst h1
                exact hname
            · split at h
              · simp only [civ_missing] at h
                split at h
                · exact absurd h (by simp)
                · simp only [RRes.ok.injEq] at h
                  obtain ⟨h1, _⟩ := h
                  subst h1
                  exact hname
              · split at h
                · exact absurd h (by simp)
                · have hne : name ≠ k := by
                    intro hh
                    subst hh
                    rw [hname] at hmiss
                    cases hmiss
                  exact civ_loop_preserves_general _ _ _ _
                    (fun st k st' outs hh => ih st k st' outs hh) _ _ _ _ _ h
                    name vid hne hname
                · exact absurd h (by simp)

/-- The reference loop of check_inner_variables preserves table agreement,
provided the recursive resolver preserves both all general bindings and
agreement. -/
theorem civ_loop_preserves_agree (vk value : String) (fv : Yaml)
    (recurse : RState → String → RRes)
    (hrec : ∀ st k st' outs, recurse st k = RRes.ok st' outs →
      tablesAgree st → tablesAgree st') :
    ∀ (lst : List String) (st : RState) (outs : List (Sum String Nat))
      (st' : RState) (outs' : List (Sum String Nat)),
      civ_loop vk value fv recurse st lst outs = RRes.ok st' outs' →
      tablesAgree st → tablesAgree st' := by
  intro lst
  induction lst with
  | nil =>
    intro st outs st' outs' h hag
    simp only [civ_loop] at h
    split at h
    · exact absurd h (by simp)
    · split at h
      · exact absurd h (by simp)
      · simp only [RRes.ok.injEq] at h
        obtain ⟨h1, _⟩ := h
        subst h1
        intro name vid hname
        by_cases hne : name = vk
        · subst hne
          have := dictSet_lookup_self st.command name st.store.length
          rw [this] at hname
          cases hname
          exact dictSet_lookup_self st.general name st.store.length
        · rw [dictSet_lookup_other _ _ _ _ hne] at hname
          rw [dictSet_lookup_other _ _ _ _ hne]
          exact hag name vid hname
  | cons sv rest ih =>
    intro st outs st' outs' h hag
    simp only [civ_loop] at h
    split at h
    · split at h
      · exact absurd h (by simp)
      · simp only [RRes.ok.injEq] at h
        obtain ⟨h1, _⟩ := h
        subst h1
        exact hag
    · split at h
      · exact absurd h (by simp)
      · exact absurd h (by simp)
      · rename_i st2 inner heq
        split at h
        · simp only [RRes.ok.injEq] at h
          obtain ⟨h1, _⟩ := h
          subst h1
          exact hrec _ _ _ _ heq hag
        · exact ih _ _ _ _ h (hrec _ _ _ _ heq hag)

/-- check_inner_variables preserves table agreement: every entry it puts in
the command table is also in the general table. -/
theorem check_inner_variables_agree (cfg : List (String × Yaml)) :
    ∀ (fuel : Nat) (st : RState) (k : String) (st' : RState)
      (outs : List (Sum String Nat)),
      check_inner_variables cfg fuel st k = RRes.ok st' outs →
      tablesAgree st → tablesAgree st' := by
  intro fuel
  induction fuel with
  | zero =>
    intro st k st' outs h
    exact absurd h (by simp [check_inner_variables])
  | succ n ih =>
    intro st k st' outs h hag
    simp only [check_inner_variables] at h
    split at h
    · rename_i vid hhit
      simp only [RRes.ok.injEq] at h
      obtain ⟨h1, _⟩ := h
      subst h1
      intro name vid' hname
      by_cases hne : name = k
      · subst hne
        have := dictSet_lookup_self st.command name vid
        rw [this] at hname
        cases hname
        exact hhit
      · rw [dictSet_lookup_other _ _ _ _ hne] at hname
        exact hag name vid' hname
    · split at h
      · exact absurd h (by simp)
      · split at h
        · exact absurd h (by simp)
        · split at h
          · exact absurd h (by simp)
          · split at h
            · simp only [civ_missing] at h
              split at h
              · exact absurd h (by simp)
              · simp only [RRes.ok.injEq] at h
                obtain ⟨h1, _⟩ := h
                subst h1
                exact hag
            · split at h
              · simp only [civ_missing] at h
                split at h
                · exact absurd h (by simp)
                · simp only [RRes.ok.injEq] at h
                  obtain ⟨h1, _⟩ := h
                  subst h1
                  exact hag
              · split at h
                · exact absurd h (by simp)
                · exact civ_loop_preserves_agree _ _ _ _
                    (fun st k st' outs hh => ih st k st' outs hh) _ _ _ _ _ h hag
                · exact absurd h (by simp)

/-- The per-command reference loop of load_context preserves all general
bindings. -/
theorem lc_vars_loop_general_mono (cfg : List (String × Yaml)) (fuel : Nat) :
    ∀ (lst : List String) (st st' : RState),
      lc_vars_loop cfg fuel st lst = VLRes.done st' →
      ∀ name vid, st.general.lookup name = some vid →
        st'.general.lookup name = some vid := by
  intro lst
  induction lst with
  | nil =>
    intro st st' h name vid hname
    simp only [lc_vars_loop, VLRes.done.injEq] at h
    subst h
    exact hname
  | cons sv rest ih =>
    intro st st' h name vid hname
    simp only [lc_vars_loop] at h
    split at h
    · exact absurd h (by simp)
    · exact absurd h (by simp)
    · rename_i st2 outs heq
      split at h
      · exact absurd h (by simp)
      · exact ih _ _ h name vid
          (check_inner_variables_general_mono cfg fuel _ _ _ _ heq name vid hname)

/-- The per-command reference loop of load_context preserves table
agreement. -/
theorem lc_vars_loop_agree (cfg : List (String × Yaml)) (fuel : Nat) :
    ∀ (lst : List String) (st st' : RState),
      lc_vars_loop cfg fuel st lst = VLRes.done st' →
      tablesAgree st → tablesAgree st' := by
  intro lst
  induction lst with
  | nil =>
    intro st st' h hag
    simp only [lc_vars_loop, VLRes.done.injEq] at h
    subst h
    exact hag
  | cons sv rest ih =>
    intro st st' h hag
    simp only [lc_vars_loop] at h
    split at h
    · exact absurd h (by simp)
    · exact absurd h (by simp)
    · rename_i st2 outs heq
      split at h
      · exact absurd h (by simp)
      · exact ih _ _ h (check_inner_variables_agree cfg fuel _ _ _ _ heq hag)

/-- Invariant of the command loop of load_context: in a successfully built
context, every variable binding of every command's table is a binding of
the final general table (the commands built earlier keep pointing at the
same store indices because general bindings are never remapped). -/
theorem lc_commands_loop_commands_agree (cfg : List (String × Yaml))
    (fuel : Nat) (tgt : String) :
    ∀ (cmds : List String) (st : RState) (acc : List CommandData)
      (ctx : Context),
      lc_commands_loop cfg fuel tgt cmds st acc = LRes.ok ctx →
      (∀ cmd ∈ acc, ∀ name vid, cmd.vars.lookup name = some vid →
        st.general.lookup name = some vid) →
      ∀ gen cs, ctx.vars = some gen → ctx.commands = some cs →
        ∀ cmd ∈ cs, ∀ name vid, cmd.vars.lookup name = some vid →
          gen.lookup name = some vid := by
  intro cmds
  induction cmds with
  | nil =>
    intro st acc ctx h hacc gen cs hgen hcs
    simp only [lc_commands_loop, LRes.ok.injEq] at h
    subst h
    simp only [Option.some.injEq] at hgen hcs
    subst hgen
    subst hcs
    exact hacc
  | cons cmd rest ih =>
    intro st acc ctx h hacc gen cs hgen hcs
    simp only [lc_commands_loop] at h
    split at h
    · simp only [LRes.ok.injEq] at h
      subst h
      cases hgen
    · split at h
      · simp only [LRes.ok.injEq] at h
        subst h
        cases hgen
      · split at h
        · exact absurd h (by simp)
        · exact absurd h (by simp)
        · simp only [LRes.ok.injEq] at h
          subst h
          cases hgen
        · rename_i st2 heq
          refine ih _ _ _ h ?_ gen cs hgen hcs
          intro cmd2 hmem name vid hname
          rcases List.mem_append.mp hmem with hold | hnew
          · exact lc_vars_loop_general_mono cfg fuel _ _ _ heq name vid
              (hacc cmd2 hold name vid hname)
          · rw [List.mem_singleton] at hnew
            subst hnew
            have hag : tablesAgree st2 :=
              lc_vars_loop_agree cfg fuel _ _ _ heq
                (by intro n v hv; simp [List.lookup] at hv)
            exact hag name vid hname

/-- In a successfully built context, every command's variable table is a
sub-table of the final general table. -/
theorem load_context_commands_agree (fuel : Nat)
    (cfg : List (String × Yaml)) (tgt : String) (ctx : Context)
    (h : load_context fuel cfg tgt = LRes.ok ctx) :
    ∀ gen cs, ctx.vars = some gen → ctx.commands = some cs →
      ∀ cmd ∈ cs, ∀ name vid, cmd.vars.lookup name = some vid →
        gen.lookup name = some vid := by
  intro gen cs hgen hcs
  unfold load_context at h
  split at h
  · simp only [LRes.ok.injEq] at h
    subst h
    cases hgen
  · split at h
    · simp only [LRes.ok.injEq] at h
      subst h
      cases hgen
    · split at h
      · exact absurd h (by simp)
      · split at h
        · exact absurd h (by simp)
        · simp only [LRes.ok.injEq] at h
          subst h
          cases hgen
      · split at h
        · exact absurd h (by simp)
        · exact lc_commands_loop_commands_agree cfg fuel _ _ _ _ _ h
            (by intro cmd hmem; cases hmem) gen cs hgen hcs
        · exact absurd h (by simp)

/-- C6. Resolution is memoized per context build: when the requested name is
already in general_variables, check_inner_variables registers the stored
Variable (the same store index, hence the same object) into the requesting
command's table and returns it without touching the store or the general
table. Consequently any two commands of one built context that bind the
same variable name bind the same store index, that of the final general
table: the identical Variable object, not merely an equal one. In the
two-command configuration c6_cfg both commands' tables map a to the one
Variable allocated at store index zero. -/
theorem c6_resolution_memoized_shared :
    (∀ (cfg : List (String × Yaml)) (fuel : Nat) (st : RState) (k : String)
       (vid : Nat),
      st.general.lookup k = some vid →
      check_inner_variables cfg (fuel + 1) st k =
        RRes.ok { st with command := dictSet st.command k vid } [Sum.inr vid]) ∧
    (∀ (fuel : Nat) (cfg : List (String × Yaml)) (tgt : String)
       (ctx : Context) (gen : List (String × Nat)) (cs : List CommandData)
       (c1 c2 : CommandData) (name : String) (v1 v2 : Nat),
      load_context fuel cfg tgt = LRes.ok ctx →
      ctx.vars = some gen → ctx.commands = some cs →
      c1 ∈ cs → c2 ∈ cs →
      c1.vars.lookup name = some v1 → c2.vars.lookup name = some v2 →
      v1 = v2 ∧ gen.lookup name = some v1) ∧
    load_context 9 c6_cfg "" =
      LRes.ok { target := some "t", vars := some [("a", 0)],
                commands := some
                  [{ command := "run", vars := [("a", 0)], args := ["{a}"] },
                   { command := "walk", vars := [("a", 0)], args := ["{a}"] }] } := by
  refine ⟨?_, ?_, rfl⟩
  · intro cfg fuel st k vid h
    simp [check_inner_variables, h]
  · intro fuel cfg tgt ctx gen cs c1 c2 name v1 v2 h hgen hcs hm1 hm2 hv1 hv2
    have h1 := load_context_commands_agree fuel cfg tgt ctx h gen cs hgen hcs
      c1 hm1 name v1 hv1
    have h2 := load_context_commands_agree fuel cfg tgt ctx h gen cs hgen hcs
      c2 hm2 name v2 hv2
    have : v1 = v2 := Option.some.inj (h1.symm.trans h2)
    exact ⟨this, h1⟩

/-- Witness for C6: the memoization branch applied at a state that has a
resolved to store index zero, with an empty configuration (the vars section
is never consulted on a memo hit). -/
theorem c6_resolution_memoized_shared_witness :
    c6_st.general.lookup "a" = some 0 ∧
    check_inner_variables [] 1 c6_st "a" =
      RRes.ok { c6_st with command := dictSet c6_st.command "a" 0 } [Sum.inr 0] :=
  ⟨rfl, c6_resolution_memoized_shared.1 [] 0 c6_st "a" 0 rfl⟩

/-- Step equation for C3: resolving a on the cyclic configuration reduces to
resolving b at one less fuel (no table is updated before the recursive
call). -/
theorem c3_step_a (n : Nat) :
    check_inner_variables c3_cfg (n + 1) emptyRState "a" =
      match check_inner_variables c3_cfg n emptyRState "b" with
      | RRes.fuelOut => RRes.fuelOut
      | RRes.raised e => RRes.raised e
      | RRes.ok st2 inner =>
        match civ_append "a" [] inner with
        | (outs2, true) => RRes.ok st2 outs2
        | (outs2, false) =>
          civ_loop "a" "{b}" (Yaml.map [("a", Yaml.str "{b}")])
            (fun st' k => check_inner_variables c3_cfg n st' k) st2 [] outs2 :=
  rfl

/-- Step equation for C3 in the other direction: resolving b reduces to
resolving a at one less fuel. -/
theorem c3_step_b (n : Nat) :
    check_inner_variables c3_cfg (n + 1) emptyRState "b" =
      match check_inner_variables c3_cfg n emptyRState "a" with
      | RRes.fuelOut => RRes.fuelOut
      | RRes.raised e => RRes.raised e
      | RRes.ok st2 inner =>
        match civ_append "b" [] inner with
        | (outs2, true) => RRes.ok st2 outs2
        | (outs2, false) =>
          civ_loop "b" "{a}" (Yaml.map [("b", Yaml.str "{a}")])
            (fun st' k => check_inner_variables c3_cfg n st' k) st2 [] outs2 :=
  rfl

/-- C3. The claim states check_inner_variables terminates on every input,
treating indirect cycles as a fatal error. On the cyclic configuration a
referencing b and b referencing a, neither name is ever registered before
the recursive call, so the recursion never bottoms out: the model exhausts
any amount of fuel (each unit is one nested Python call), which is
unbounded recursion in the source, not an error result. -/
theorem c3_indirect_cycle_unbounded_recursion :
    ∀ fuel : Nat,
      check_inner_variables c3_cfg fuel emptyRState "a" = RRes.fuelOut := by
  have key : ∀ fuel : Nat,
      check_inner_variables c3_cfg fuel emptyRState "a" = RRes.fuelOut ∧
      check_inner_variables c3_cfg fuel emptyRState "b" = RRes.fuelOut := by
    intro fuel
    induction fuel with
    | zero => exact ⟨rfl, rfl⟩
    | succ n ih =>
      constructor
      · rw [c3_step_a, ih.2]
      · rw [c3_step_b, ih.1]
  exact fun fuel => (key fuel).1

/-- Character-list form of a whole-token brace reference. -/
theorem braced_toList (n : String) :
    ("\x7b" ++ n ++ "\x7d").toList = '{' :: (n.toList ++ ['}']) := rfl

/-- A whole-token brace reference starts with the opening brace. -/
theorem braced_startsWith (n : String) :
    pyStartsWith ("\x7b" ++ n ++ "\x7d") "\x7b" = true := by
  simp [pyStartsWith, braced_toList, List.isPrefixOf]

/-- A whole-token brace reference ends with the closing brace. -/
theorem braced_endsWith (n : String) :
    pyEndsWith ("\x7b" ++ n ++ "\x7d") "\x7d" = true := by
  simp [pyEndsWith, braced_toList, List.isSuffixOf, List.isPrefixOf]

/-- Slicing the braces off a whole-token reference recovers the name. -/
theorem braced_sliceInner (n : String) :
    pySliceInner ("\x7b" ++ n ++ "\x7d") = n := by
  simp [pySliceInner, braced_toList, List.dropLast_concat]

/-- C7. A variable whose attributes contain secret masks its value under
secret mode and reveals it otherwise; Command.__str__ always expands
arguments in secret mode, so rendering a command whose sole argument is the
whole-token reference to such a variable produces the mask and never the
underlying value among the expanded arguments. -/
theorem c7_secret_never_leaks (v : Variable) (c : Command) (n : String)
    (hsec : strContains v.attributes "secret" = true)
    (hvars : c.vars = [(n, v)])
    (hargs : c.args = ["\x7b" ++ n ++ "\x7d"]) :
    v.get_value true = "*****" ∧
    v.get_value false = v.value ∧
    c.get_arguments true = some ["*****"] ∧
    c.toStr = some (c.command ++ " " ++ "*****") ∧
    (v.value ≠ "*****" → ∀ l, c.get_arguments true = some l →
      ¬ v.value ∈ l) := by
  have hmask : v.get_value true = "*****" := by
    simp [Variable.get_value, hsec]
  have hlookup : [(n, v)].lookup n = some v := by
    simp [List.lookup]
  have hexp : c.get_arguments true = some ["*****"] := by
    unfold Command.get_arguments
    rw [hargs, hvars]
    simp [expandArgs, expandArg, braced_startsWith, braced_endsWith,
      braced_sliceInner, hlookup, hmask]
  refine ⟨hmask, by simp [Variable.get_value], hexp, ?_, ?_⟩
  · unfold Command.toStr
    rw [hexp]
    rfl
  · intro hne l hl
    have : l = ["*****"] := (Option.some.inj (hexp.symm.trans hl)).symm
    subst this
    simp [hne]

/-- The variable of the C7 witness. -/
def c7_v : Variable := Variable.mk "token" "abc" "secret" []

/-- The command of the C7 witness: its sole argument is the whole-token
reference to the secret variable. -/
def c7_c : Command :=
  { command := "deploy", vars := [("token", c7_v)], args := ["{token}"] }

/-- Witness for C7 at a concrete secret variable and command. -/
theorem c7_secret_never_leaks_witness :
    strContains c7_v.attributes "secret" = true ∧
    c7_c.get_arguments true = some ["*****"] ∧
    c7_c.toStr = some ("deploy *****") :=
  ⟨rfl,
   (c7_secret_never_leaks c7_v c7_c "token" rfl rfl rfl).2.2.1,
   (c7_secret_never_leaks c7_v c7_c "token" rfl rfl rfl).2.2.2.1⟩

/-- Soundness of the argument-expansion loop under the precondition that
every whole-token reference has its name in the table. -/
theorem expandArgs_sound (table : List (String × Variable)) (secret : Bool) :
    ∀ args : List String,
      (∀ a ∈ args, (pyStartsWith a "\x7b" && pyEndsWith a "\x7d") = true →
        (table.lookup (pySliceInner a)).isSome = true) →
      ∃ l, expandArgs table secret args = some l ∧
        l.length = args.length ∧
        ∀ i a, args.get? i = some a →
          (pyStartsWith a "\x7b" && pyEndsWith a "\x7d") = false →
          l.get? i = some a := by
  intro args
  induction args with
  | nil =>
    intro _
    refine ⟨[], rfl, rfl, ?_⟩
    intro i a h
    cases i <;> cases h
  | cons a rest ih =>
    intro h
    obtain ⟨l, hl, hlen, hidx⟩ :=
      ih fun x hx => h x (List.mem_cons_of_mem _ hx)
    cases hshape : (pyStartsWith a "\x7b" && pyEndsWith a "\x7d") with
    | true =>
      have hsome := h a (List.mem_cons_self _ _) hshape
      obtain ⟨v, hv⟩ := Option.isSome_iff_exists.mp hsome
      refine ⟨v.get_value secret :: l, ?_, by simp [hlen], ?_⟩
      · simp [expandArgs, expandArg, hshape, hv, hl]
      · intro i x hx hxf
        cases i with
        | zero =>
          simp at hx
          subst hx
          rw [hshape] at hxf
          cases hxf
        | succ j =>
          rw [List.get?_cons_succ] at hx ⊢
          exact hidx j x hx hxf
    | false =>
      refine ⟨a :: l, ?_, by simp [hlen], ?_⟩
      · simp [expandArgs, expandArg, hshape, hl]
      · intro i x hx hxf
        cases i with
        | zero =>
          simp at hx
          subst hx
          rfl
        | succ j =>
          rw [List.get?_cons_succ] at hx ⊢
          exact hidx j x hx hxf

/-- C9. Under the precondition that every argument that both starts with an
opening brace and ends with a closing brace has its inner text among the
command's variables, argument expansion never hits the missing-key branch
(no KeyError), and every argument not of that whole-token shape, including
partial-token forms, is passed through unchanged at its position. -/
theorem c9_arguments_welldefined (c : Command) (secret : Bool)
    (h : ∀ a ∈ c.args,
      (pyStartsWith a "\x7b" && pyEndsWith a "\x7d") = true →
      (c.vars.lookup (pySliceInner a)).isSome = true) :
    ∃ l, c.get_arguments secret = some l ∧
      l.length = c.args.length ∧
      ∀ i a, c.args.get? i = some a →
        (pyStartsWith a "\x7b" && pyEndsWith a "\x7d") = false →
        l.get? i = some a :=
  expandArgs_sound c.vars secret c.args h

/-- The command of the C9 witness: one whole-token reference, one
partial-token argument and one literal. -/
def c9_c : Command :=
  { command := "echo", vars := [("a", Variable.mk "a" "A" "" [])],
    args := ["{a}", "pre{a}post", "lit"] }

/-- Witness for C9: the precondition holds for the concrete command and the
expansion is total, with the partial-token and literal arguments passed
through. -/
theorem c9_arguments_welldefined_witness :
    (∀ a ∈ c9_c.args,
      (pyStartsWith a "\x7b" && pyEndsWith a "\x7d") = true →
      (c9_c.vars.lookup (pySliceInner a)).isSome = true) ∧
    (∃ l, c9_c.get_arguments false = some l ∧
      l.length = c9_c.args.length ∧
      ∀ i a, c9_c.args.get? i = some a →
        (pyStartsWith a "\x7b" && pyEndsWith a "\x7d") = false →
        l.get? i = some a) :=
  ⟨by decide, c9_arguments_welldefined c9_c false (by decide)⟩

/-- Invariant of the command loop of load_context: a returned context
either carries an error (with the target key set, the vars and commands
keys absent) or carries no error and has target, vars and commands set. -/
theorem lc_commands_loop_error_xor (cfg : List (String × Yaml)) (fuel : Nat)
    (tgt : String) :
    ∀ (cmds : List String) (st : RState) (acc : List CommandData)
      (ctx : Context),
      lc_commands_loop cfg fuel tgt cmds st acc = LRes.ok ctx →
      (ctx.error.isSome = true ∧ ctx.target.isSome = true ∧
        ctx.vars = none ∧ ctx.commands = none) ∨
      (ctx.error = none ∧ ctx.target.isSome = true ∧
        ctx.vars.isSome = true ∧ ctx.commands.isSome = true) := by
  intro cmds
  induction cmds with
  | nil =>
    intro st acc ctx h
    simp only [lc_commands_loop, LRes.ok.injEq] at h
    subst h
    right
    simp
  | cons cmd rest ih =>
    intro st acc ctx h
    simp only [lc_commands_loop] at h
    split at h
    · simp only [LRes.ok.injEq] at h
      subst h
      left
      simp
    · split at h
      · simp only [LRes.ok.injEq] at h
        subst h
        left
        simp
      · split at h
        · exact absurd h (by simp)
        · exact absurd h (by simp)
        · simp only [LRes.ok.injEq] at h
          subst h
          left
          simp
        · exact ih _ _ _ h

/-- C2 amended. For every configuration (modelled from the parsed top-level
mapping) and target selector, a context returned by load_context populates
exactly one of the error key or the pair vars and commands; the target key,
however, accompanies the error key whenever the failure happens after
target selection, so error and target can coexist (see the
counterexample). -/
theorem c2_error_xor_build (fuel : Nat) (cfg : List (String × Yaml))
    (tgt : String) (ctx : Context)
    (h : load_context fuel cfg tgt = LRes.ok ctx) :
    (ctx.error.isSome = true ∧ ctx.vars = none ∧ ctx.commands = none) ∨
    (ctx.error = none ∧ ctx.target.isSome = true ∧
      ctx.vars.isSome = true ∧ ctx.commands.isSome = true) := by
  unfold load_context at h
  split at h
  · simp only [LRes.ok.injEq] at h
    subst h
    left
    simp
  · split at h
    · simp only [LRes.ok.injEq] at h
      subst h
      left
      simp
    · split at h
      · exact absurd h (by simp)
      · split at h
        · exact absurd h (by simp)
        · simp only [LRes.ok.injEq] at h
          subst h
          left
          simp
      · split at h
        · exact absurd h (by simp)
        · rcases lc_commands_loop_error_xor cfg fuel _ _ _ _ _ h with
            ⟨h1, _, h3, h4⟩ | hr
          · exact Or.inl ⟨h1, h3, h4⟩
          · exact Or.inr hr
        · exact absurd h (by simp)

/-- Witness for C2: the invariant evaluated at the concrete configuration
of the counterexample, whose returned context carries the error side. -/
theorem c2_error_xor_build_witness :
    (c2_ctx.error.isSome = true ∧ c2_ctx.vars = none ∧
      c2_ctx.commands = none) ∨
    (c2_ctx.error = none ∧ c2_ctx.target.isSome = true ∧
      c2_ctx.vars.isSome = true ∧ c2_ctx.commands.isSome = true) :=
  c2_error_xor_build 1 c5_cfg "" c2_ctx rfl

end Boost
